import Mathlib

set_option maxRecDepth 16384

/-!
Shallow embedding of the transaction-processor core (src/model.rs,
src/account_manager/account.rs, src/account_manager/mod.rs).

Modelling conventions:
* `rust_decimal::Decimal` is modelled as an integer mantissa (`Int`) at a
  common fixed scale; a value is representable iff its mantissa fits in the
  96-bit magnitude of `rust_decimal` (`|m| <= 2^96 - 1`).  `checked_add` /
  `checked_sub` return `none` exactly when the result mantissa is out of
  range, which is the behaviour of `rust_decimal` on scale-0 operands.
  The unchecked `+=` of the Rust `Add` impl panics on overflow; a panic is
  modelled by the dedicated `ProcResult.panic` outcome.
* `HashMap` is modelled as an association list with unique keys
  (first-insertion order); `insert` overwrites an existing binding in place
  and appends a fresh one at the end.
* `Account::process_record(&mut self, ...) -> Result<(), ProcessingError>`
  becomes a function `Account → InputRecord → ProcResult`, where
  `ProcResult.ok a` is `Ok(())` with post-state `a`, `ProcResult.err a e` is
  `Err(e)` with post-state `a` (the state the Rust code holds at the early
  `return Err`), and `ProcResult.panic` is a Rust panic.
-/

namespace TxProc

abbrev ClientId := Nat
abbrev TransactionId := Nat

/-- Largest mantissa magnitude representable by `rust_decimal::Decimal`. -/
def decimalMax : Int := 2 ^ 96 - 1

/-- A monetary amount: the integer mantissa of a `Decimal` at the common scale. -/
abbrev Decimal := Int

/-- The mantissa fits the 96-bit magnitude of `rust_decimal::Decimal`. -/
def Decimal.inRange (d : Decimal) : Prop :=
  -decimalMax ≤ d ∧ d ≤ decimalMax

instance (d : Decimal) : Decidable (Decimal.inRange d) := by
  unfold Decimal.inRange; infer_instance

/-- `Decimal::checked_add`: `none` on overflow of the representation. -/
def checked_add (a b : Decimal) : Option Decimal :=
  if Decimal.inRange (a + b) then some (a + b) else none

/-- `Decimal::checked_sub`: `none` on overflow of the representation. -/
def checked_sub (a b : Decimal) : Option Decimal :=
  if Decimal.inRange (a - b) then some (a - b) else none

/-- Association-list model of `HashMap<Nat-like key, α>`: key membership. -/
def mapContains {α : Type} (m : List (Nat × α)) (k : Nat) : Bool :=
  m.any (fun p => p.1 == k)

/-- Association-list model of `HashMap`: lookup. -/
def mapGet {α : Type} : List (Nat × α) → Nat → Option α
  | [], _ => none
  | p :: rest, k => if p.1 = k then some p.2 else mapGet rest k

/-- Association-list model of `HashMap`: insert, overwriting an existing
binding in place and appending a fresh key at the end. -/
def mapInsert {α : Type} : List (Nat × α) → Nat → α → List (Nat × α)
  | [], k, v => [(k, v)]
  | p :: rest, k, v => if p.1 = k then (k, v) :: rest else p :: mapInsert rest k v

/-- `TransactionState` from account.rs. -/
inductive TransactionState
  | Valid
  | Dispute
  | Resolved
  | ChargedBack
deriving DecidableEq, Repr

/-- `TransactionType` from account.rs. -/
inductive TransactionType
  | Deposit
  | Withdrawal
deriving DecidableEq, Repr

/-- `Transaction` from account.rs (field `r#type` is rendered `kind`). -/
structure Transaction where
  state : TransactionState
  amount : Decimal
  kind : TransactionType
deriving DecidableEq, Repr

/-- `Account` from account.rs. -/
structure Account where
  client_id : ClientId
  transactions : List (TransactionId × Transaction)
  available : Decimal
  held : Decimal
  locked : Bool
deriving DecidableEq, Repr

/-- `Account::new`. -/
def Account.new (client_id : ClientId) : Account :=
  { client_id := client_id
    transactions := []
    available := 0
    held := 0
    locked := false }

/-- `InputRecordType` from model.rs. -/
inductive InputRecordType
  | Deposit
  | Withdrawal
  | Dispute
  | Resolve
  | Chargeback
deriving DecidableEq, Repr

/-- `InputRecord` from model.rs (field `r#type` is rendered `kind`). -/
structure InputRecord where
  kind : InputRecordType
  client_id : ClientId
  transaction_id : TransactionId
  amount : Option Decimal
deriving DecidableEq, Repr

/-- `ProcessingError` from account.rs. -/
inductive ProcessingError
  | AccountIsLocked
  | AmountMissing
  | DecimalOverflow
  | TransactionAlreadyExists (id : TransactionId)
  | TransactionMissing (id : TransactionId)
  | TransactionWrongState (expected actual : TransactionState)
  | WithdrawalNotEnoughMoneyAvailable (available amount : Decimal)
deriving DecidableEq, Repr

/-- Outcome of `Account::process_record` on `&mut self`: `ok` carries the
post-state of `Ok(())`, `err` carries the state held at the early
`return Err(e)`, and `panic` is a Rust panic (unchecked `Decimal` overflow). -/
inductive ProcResult
  | ok (a : Account)
  | err (a : Account) (e : ProcessingError)
  | panic
deriving DecidableEq, Repr

/-- `calculate_transaction_revert` from account.rs. -/
def calculate_transaction_revert (transaction : Transaction)
    (available held : Decimal) :
    Except ProcessingError (Decimal × Decimal) :=
  match transaction.kind with
  | TransactionType.Deposit =>
    match checked_sub held transaction.amount with
    | none => Except.error ProcessingError.DecimalOverflow
    | some new_held => Except.ok (available, new_held)
  | TransactionType.Withdrawal =>
    match checked_sub held (-transaction.amount) with
    | none => Except.error ProcessingError.DecimalOverflow
    | some new_held =>
      match checked_add available (-transaction.amount) with
      | none => Except.error ProcessingError.DecimalOverflow
      | some new_available => Except.ok (new_available, new_held)

/-- `check_if_state_eq` from account.rs. -/
def check_if_state_eq (transaction : Transaction)
    (expected : TransactionState) : Except ProcessingError Unit :=
  if transaction.state ≠ expected then
    Except.error (ProcessingError.TransactionWrongState expected transaction.state)
  else
    Except.ok ()

/-- `Account::process_record` from account.rs, translated statement by
statement.  The Deposit branch's `self.available += amount` is the unchecked
`Add` of `rust_decimal`, which panics on overflow: on overflow the outcome is
`ProcResult.panic`. -/
def Account.process_record (self : Account) (record : InputRecord) : ProcResult :=
  if self.locked then
    ProcResult.err self ProcessingError.AccountIsLocked
  else
    match record.kind with
    | InputRecordType.Deposit =>
      if mapContains self.transactions record.transaction_id then
        ProcResult.err self
          (ProcessingError.TransactionAlreadyExists record.transaction_id)
      else
        match record.amount with
        | none => ProcResult.err self ProcessingError.AmountMissing
        | some amount =>
          let self1 :=
            { self with
              transactions :=
                mapInsert self.transactions record.transaction_id
                  { state := TransactionState.Valid
                    amount := amount
                    kind := TransactionType.Deposit } }
          if Decimal.inRange (self1.available + amount) then
            ProcResult.ok { self1 with available := self1.available + amount }
          else
            ProcResult.panic
    | InputRecordType.Withdrawal =>
      if mapContains self.transactions record.transaction_id then
        ProcResult.err self
          (ProcessingError.TransactionAlreadyExists record.transaction_id)
      else
        match record.amount with
        | none => ProcResult.err self ProcessingError.AmountMissing
        | some amount =>
          match checked_sub self.available amount with
          | none => ProcResult.err self ProcessingError.DecimalOverflow
          | some new_available =>
            if new_available < 0 then
              ProcResult.err self
                (ProcessingError.WithdrawalNotEnoughMoneyAvailable
                  self.available amount)
            else
              ProcResult.ok
                { self with
                  transactions :=
                    mapInsert self.transactions record.transaction_id
                      { state := TransactionState.Valid
                        amount := -amount
                        kind := TransactionType.Withdrawal }
                  available := new_available }
    | InputRecordType.Dispute =>
      match mapGet self.transactions record.transaction_id with
      | none =>
        ProcResult.err self
          (ProcessingError.TransactionMissing record.transaction_id)
      | some transaction =>
        match check_if_state_eq transaction TransactionState.Valid with
        | Except.error e => ProcResult.err self e
        | Except.ok _ =>
          match checked_sub self.available transaction.amount with
          | none => ProcResult.err self ProcessingError.DecimalOverflow
          | some new_available =>
            match checked_add self.held transaction.amount with
            | none => ProcResult.err self ProcessingError.DecimalOverflow
            | some new_held =>
              ProcResult.ok
                { self with
                  transactions :=
                    mapInsert self.transactions record.transaction_id
                      { transaction with state := TransactionState.Dispute }
                  available := new_available
                  held := new_held }
    | InputRecordType.Resolve =>
      match mapGet self.transactions record.transaction_id with
      | none =>
        ProcResult.err self
          (ProcessingError.TransactionMissing record.transaction_id)
      | some transaction =>
        match check_if_state_eq transaction TransactionState.Dispute with
        | Except.error e => ProcResult.err self e
        | Except.ok _ =>
          match calculate_transaction_revert transaction self.available self.held with
          | Except.error e => ProcResult.err self e
          | Except.ok (new_available, new_held) =>
            ProcResult.ok
              { self with
                transactions :=
                  mapInsert self.transactions record.transaction_id
                    { transaction with state := TransactionState.Resolved }
                available := new_available
                held := new_held }
    | InputRecordType.Chargeback =>
      match mapGet self.transactions record.transaction_id with
      | none =>
        ProcResult.err self
          (ProcessingError.TransactionMissing record.transaction_id)
      | some transaction =>
        match check_if_state_eq transaction TransactionState.Dispute with
        | Except.error e => ProcResult.err self e
        | Except.ok _ =>
          match calculate_transaction_revert transaction self.available self.held with
          | Except.error e => ProcResult.err self e
          | Except.ok (new_available, new_held) =>
            ProcResult.ok
              { self with
                transactions :=
                  mapInsert self.transactions record.transaction_id
                    { transaction with state := TransactionState.ChargedBack }
                available := new_available
                held := new_held
                locked := true }

/-- `OutputRecord` from model.rs. -/
structure OutputRecord where
  client_id : ClientId
  available : Decimal
  held : Decimal
  total : Decimal
  locked : Bool
deriving DecidableEq, Repr

/-- `Account::to_output`.  The Rust body computes `available + held` with the
unchecked `Add`, which panics on overflow; the panic is modelled by `none`. -/
def Account.to_output (self : Account) : Option OutputRecord :=
  if Decimal.inRange (self.available + self.held) then
    some
      { client_id := self.client_id
        available := self.available
        held := self.held
        total := self.available + self.held
        locked := self.locked }
  else
    none

/-- Feeding a stream of records to one `Account`, continuing past per-record
errors the way the caller's loop does; `none` on a panic, which aborts the
whole run. -/
def Account.processAll (acc : Account) : List InputRecord → Option Account
  | [] => some acc
  | r :: rs =>
    match acc.process_record r with
    | ProcResult.ok a => a.processAll rs
    | ProcResult.err a _ => a.processAll rs
    | ProcResult.panic => none

/-- `AccountManager` from mod.rs (`accounts: HashMap<ClientId, Account>`). -/
structure AccountManager where
  accounts : List (ClientId × Account)
deriving DecidableEq, Repr

/-- `AccountManager::new`. -/
def AccountManager.new : AccountManager := { accounts := [] }

/-- `account_manager::Error` from mod.rs. -/
inductive ManagerError
  | CannotRetrieveAccount (c : ClientId)
  | RecordProcessing (e : ProcessingError)
deriving DecidableEq, Repr

/-- Outcome of `AccountManager::process_record`, mirroring `ProcResult`. -/
inductive MgrResult
  | ok (m : AccountManager)
  | err (m : AccountManager) (e : ManagerError)
  | panic
deriving DecidableEq, Repr

/-- `AccountManager::process_record` from mod.rs: insert a fresh
`Account::new(client_id)` when the client is unseen, then delegate to the
account, writing its post-state back into the map. -/
def AccountManager.process_record (self : AccountManager) (record : InputRecord) :
    MgrResult :=
  let accounts1 :=
    if mapContains self.accounts record.client_id then self.accounts
    else mapInsert self.accounts record.client_id (Account.new record.client_id)
  match mapGet accounts1 record.client_id with
  | none =>
    MgrResult.err { accounts := accounts1 }
      (ManagerError.CannotRetrieveAccount record.client_id)
  | some account =>
    match account.process_record record with
    | ProcResult.ok a =>
      MgrResult.ok { accounts := mapInsert accounts1 record.client_id a }
    | ProcResult.err a e =>
      MgrResult.err { accounts := mapInsert accounts1 record.client_id a }
        (ManagerError.RecordProcessing e)
    | ProcResult.panic => MgrResult.panic

/-- Helper for `gather_output`: collect `to_output` of every stored account in
map order, `none` as soon as one `to_output` panics. -/
def gatherList : List (ClientId × Account) → Option (List OutputRecord)
  | [] => some []
  | p :: rest =>
    match p.2.to_output with
    | none => none
    | some o =>
      match gatherList rest with
      | none => none
      | some os => some (o :: os)

/-- `AccountManager::gather_output`: one `OutputRecord` per stored account
(`none` if some `to_output` panics). -/
def AccountManager.gather_output (self : AccountManager) :
    Option (List OutputRecord) :=
  gatherList self.accounts

/-- The main loop over the record stream: per-record errors are reported and
skipped (processing continues with the mutated manager), a panic aborts. -/
def runEvents (m : AccountManager) : List InputRecord → Option AccountManager
  | [] => some m
  | r :: rs =>
    match m.process_record r with
    | MgrResult.ok m1 => runEvents m1 rs
    | MgrResult.err m1 _ => runEvents m1 rs
    | MgrResult.panic => none

/-- Post-state of an account operation, `none` on a panic. -/
def ProcResult.post : ProcResult → Option Account
  | ProcResult.ok a => some a
  | ProcResult.err a _ => some a
  | ProcResult.panic => none

/-- Post-state of a registry operation, `none` on a panic. -/
def MgrResult.post : MgrResult → Option AccountManager
  | MgrResult.ok m => some m
  | MgrResult.err m _ => some m
  | MgrResult.panic => none

/-- Every stored account carries the client id it is keyed under (established
by `Account::new(client_id)` at creation and never changed). -/
def EntriesOk (l : List (ClientId × Account)) : Prop :=
  ∀ p ∈ l, p.2.client_id = p.1

/-- Structural invariant of the registry map: unique keys, and each account
keyed under its own client id. -/
def ManagerOk (m : AccountManager) : Prop :=
  (m.accounts.map Prod.fst).Nodup ∧ EntriesOk m.accounts

end TxProc

/-! ## Map lemmas -/

namespace TxProc

theorem mapGet_mapInsert_self {α : Type} (m : List (Nat × α)) (k : Nat) (v : α) :
    mapGet (mapInsert m k v) k = some v := by
  induction m with
  | nil => simp [mapInsert, mapGet]
  | cons p rest ih =>
    by_cases h : p.1 = k
    · simp [mapInsert, h, mapGet]
    · simp [mapInsert, h, mapGet, ih]

theorem mapContains_iff_mem {α : Type} (m : List (Nat × α)) (k : Nat) :
    mapContains m k = true ↔ k ∈ m.map Prod.fst := by
  induction m with
  | nil => simp [mapContains]
  | cons p rest ih =>
    simp only [mapContains, List.any_cons, Bool.or_eq_true, beq_iff_eq,
      List.map_cons, List.mem_cons]
    rw [← mapContains, ih]
    constructor
    · rintro (h | h)
      · exact Or.inl h.symm
      · exact Or.inr h
    · rintro (h | h)
      · exact Or.inl h.symm
      · exact Or.inr h

theorem mapGet_isSome_of_contains {α : Type} {m : List (Nat × α)} {k : Nat}
    (h : mapContains m k = true) : ∃ v, mapGet m k = some v := by
  induction m with
  | nil => simp [mapContains] at h
  | cons p rest ih =>
    by_cases hk : p.1 = k
    · exact ⟨p.2, by simp [mapGet, hk]⟩
    · have : mapContains rest k = true := by
        simpa [mapContains, hk] using h
      obtain ⟨v, hv⟩ := ih this
      exact ⟨v, by simp [mapGet, hk, hv]⟩

theorem mapInsert_of_not_contains {α : Type} {m : List (Nat × α)} {k : Nat}
    (v : α) (h : mapContains m k = false) :
    mapInsert m k v = m ++ [(k, v)] := by
  induction m with
  | nil => rfl
  | cons p rest ih =>
    have hk : ¬ p.1 = k := by
      intro he
      simp [mapContains, he] at h
    have hrest : mapContains rest k = false := by
      simpa [mapContains, hk] using h
    simp [mapInsert, hk, ih hrest]

theorem map_fst_mapInsert_of_mem {α : Type} {m : List (Nat × α)} {k : Nat}
    (v : α) (h : k ∈ m.map Prod.fst) :
    (mapInsert m k v).map Prod.fst = m.map Prod.fst := by
  induction m with
  | nil => simp at h
  | cons p rest ih =>
    by_cases hk : p.1 = k
    · simp [mapInsert, hk]
    · have : k ∈ rest.map Prod.fst := by
        rw [List.map_cons] at h
        rcases List.mem_cons.mp h with h1 | h1
        · exact absurd h1.symm hk
        · exact h1
      simp [mapInsert, hk, ih this]

theorem forall_mem_mapInsert {α : Type} {P : Nat × α → Prop}
    {m : List (Nat × α)} {k : Nat} {v : α} (hv : P (k, v)) :
    (∀ p ∈ m, P p) → ∀ p ∈ mapInsert m k v, P p := by
  induction m with
  | nil =>
    intro _ p hp
    simp only [mapInsert, List.mem_singleton] at hp
    exact hp ▸ hv
  | cons q rest ih =>
    intro hm p hp
    by_cases hk : q.1 = k
    · simp only [mapInsert] at hp
      rw [if_pos hk] at hp
      rcases List.mem_cons.mp hp with h1 | h1
      · exact h1 ▸ hv
      · exact hm p (List.mem_cons_of_mem q h1)
    · simp only [mapInsert] at hp
      rw [if_neg hk] at hp
      rcases List.mem_cons.mp hp with h1 | h1
      · exact h1 ▸ hm q (List.mem_cons_self q rest)
      · exact ih (fun x hx => hm x (List.mem_cons_of_mem q hx)) p h1

theorem mapGet_mem {α : Type} {m : List (Nat × α)} {k : Nat} {v : α}
    (h : mapGet m k = some v) : (k, v) ∈ m := by
  induction m with
  | nil => simp [mapGet] at h
  | cons p rest ih =>
    by_cases hk : p.1 = k
    · simp only [mapGet, hk, if_true, Option.some.injEq] at h
      subst h
      rw [← hk]
      exact List.mem_cons_self p rest
    · simp only [mapGet, hk, if_false] at h
      exact List.mem_cons_of_mem p (ih h)

end TxProc

/-! ## Arithmetic and account-level lemmas -/

namespace TxProc

theorem checked_add_eq_some {a b c : Decimal} :
    checked_add a b = some c ↔ Decimal.inRange (a + b) ∧ c = a + b := by
  unfold checked_add
  split <;> simp_all
  exact eq_comm

theorem checked_sub_eq_some {a b c : Decimal} :
    checked_sub a b = some c ↔ Decimal.inRange (a - b) ∧ c = a - b := by
  unfold checked_sub
  split <;> simp_all
  exact eq_comm

theorem process_record_err {acc : Account} {r : InputRecord} {a : Account}
    {e : ProcessingError} (h : acc.process_record r = ProcResult.err a e) :
    a = acc := by
  unfold Account.process_record at h
  simp only [] at h
  repeat' split at h
  all_goals cases h
  all_goals rfl

theorem client_id_of_ok {acc : Account} {r : InputRecord} {a : Account}
    (h : acc.process_record r = ProcResult.ok a) :
    a.client_id = acc.client_id := by
  unfold Account.process_record at h
  simp only [] at h
  repeat' split at h
  all_goals cases h
  all_goals rfl

theorem client_id_of_post {acc : Account} {r : InputRecord} {a : Account}
    (h : (acc.process_record r).post = some a) :
    a.client_id = acc.client_id := by
  cases hr : acc.process_record r with
  | ok a1 =>
    rw [hr] at h
    simp only [ProcResult.post, Option.some.injEq] at h
    rw [← h]
    exact client_id_of_ok hr
  | err a1 e =>
    rw [hr] at h
    simp only [ProcResult.post, Option.some.injEq] at h
    rw [← h, process_record_err hr]
  | panic =>
    rw [hr] at h
    simp [ProcResult.post] at h

theorem deposit_ok_eq {acc : Account} {c tid : Nat} {amt : Decimal} {a : Account}
    (h : acc.process_record
        { kind := InputRecordType.Deposit, client_id := c,
          transaction_id := tid, amount := some amt } = ProcResult.ok a) :
    a = { acc with
          transactions := mapInsert acc.transactions tid
            { state := TransactionState.Valid, amount := amt,
              kind := TransactionType.Deposit }
          available := acc.available + amt } := by
  unfold Account.process_record at h
  simp only [] at h
  repeat' split at h
  all_goals cases h
  all_goals rfl

theorem withdrawal_ok_eq {acc : Account} {c tid : Nat} {amt : Decimal} {a : Account}
    (h : acc.process_record
        { kind := InputRecordType.Withdrawal, client_id := c,
          transaction_id := tid, amount := some amt } = ProcResult.ok a) :
    a = { acc with
          transactions := mapInsert acc.transactions tid
            { state := TransactionState.Valid, amount := -amt,
              kind := TransactionType.Withdrawal }
          available := acc.available - amt } ∧ 0 ≤ acc.available - amt := by
  unfold Account.process_record at h
  simp only [] at h
  repeat' split at h
  all_goals cases h
  all_goals simp_all [checked_sub_eq_some]

theorem dispute_ok_eq {acc : Account} {c tid : Nat} {am : Option Decimal}
    {t : Transaction} {a : Account}
    (ht : mapGet acc.transactions tid = some t)
    (h : acc.process_record
        { kind := InputRecordType.Dispute, client_id := c,
          transaction_id := tid, amount := am } = ProcResult.ok a) :
    a = { acc with
          transactions := mapInsert acc.transactions tid
            { t with state := TransactionState.Dispute }
          available := acc.available - t.amount
          held := acc.held + t.amount } := by
  unfold Account.process_record at h
  simp only [] at h
  rw [ht] at h
  simp only [] at h
  repeat' split at h
  all_goals cases h
  all_goals simp_all [checked_sub_eq_some, checked_add_eq_some]

theorem revert_ok_deposit {t : Transaction} {av hd na nh : Decimal}
    (hk : t.kind = TransactionType.Deposit)
    (h : calculate_transaction_revert t av hd = Except.ok (na, nh)) :
    na = av ∧ nh = hd - t.amount := by
  unfold calculate_transaction_revert at h
  rw [hk] at h
  repeat' split at h
  all_goals cases h
  all_goals simp_all [checked_sub_eq_some]

theorem revert_ok_withdrawal {t : Transaction} {av hd na nh : Decimal}
    (hk : t.kind = TransactionType.Withdrawal)
    (h : calculate_transaction_revert t av hd = Except.ok (na, nh)) :
    nh = hd - (-t.amount) ∧ na = av + (-t.amount) := by
  unfold calculate_transaction_revert at h
  rw [hk] at h
  repeat' split at h
  all_goals cases h
  all_goals simp_all [checked_sub_eq_some, checked_add_eq_some]

theorem resolve_ok_eq {acc : Account} {c tid : Nat} {am : Option Decimal}
    {t : Transaction} {a : Account}
    (ht : mapGet acc.transactions tid = some t)
    (h : acc.process_record
        { kind := InputRecordType.Resolve, client_id := c,
          transaction_id := tid, amount := am } = ProcResult.ok a) :
    ∃ na nh,
      calculate_transaction_revert t acc.available acc.held = Except.ok (na, nh) ∧
      a = { acc with
            transactions := mapInsert acc.transactions tid
              { t with state := TransactionState.Resolved }
            available := na
            held := nh } := by
  unfold Account.process_record at h
  simp only [] at h
  rw [ht] at h
  simp only [] at h
  repeat' split at h
  all_goals cases h
  all_goals simp_all

theorem chargeback_ok_eq {acc : Account} {c tid : Nat} {am : Option Decimal}
    {t : Transaction} {a : Account}
    (ht : mapGet acc.transactions tid = some t)
    (h : acc.process_record
        { kind := InputRecordType.Chargeback, client_id := c,
          transaction_id := tid, amount := am } = ProcResult.ok a) :
    ∃ na nh,
      calculate_transaction_revert t acc.available acc.held = Except.ok (na, nh) ∧
      a = { acc with
            transactions := mapInsert acc.transactions tid
              { t with state := TransactionState.ChargedBack }
            available := na
            held := nh
            locked := true } := by
  unfold Account.process_record at h
  simp only [] at h
  rw [ht] at h
  simp only [] at h
  repeat' split at h
  all_goals cases h
  all_goals simp_all

theorem locked_step (acc : Account) (r : InputRecord) (h : acc.locked = true) :
    acc.process_record r = ProcResult.err acc ProcessingError.AccountIsLocked := by
  unfold Account.process_record
  simp [h]

theorem locked_processAll (acc : Account) (rs : List InputRecord)
    (h : acc.locked = true) : acc.processAll rs = some acc := by
  induction rs with
  | nil => rfl
  | cons r rs ih => simp [Account.processAll, locked_step acc r h, ih]

end TxProc

/-! ## Registry-level lemmas -/

namespace TxProc

theorem mgr_step_accounts {m : AccountManager} {r : InputRecord} {m1 : AccountManager}
    (h : (m.process_record r).post = some m1) :
    ∃ account a,
      mapGet (if mapContains m.accounts r.client_id then m.accounts
              else mapInsert m.accounts r.client_id (Account.new r.client_id))
        r.client_id = some account ∧
      (account.process_record r).post = some a ∧
      m1.accounts =
        mapInsert (if mapContains m.accounts r.client_id then m.accounts
                   else mapInsert m.accounts r.client_id (Account.new r.client_id))
          r.client_id a := by
  unfold AccountManager.process_record at h
  simp only [] at h
  by_cases hc : mapContains m.accounts r.client_id
  · rw [if_pos hc] at h ⊢
    obtain ⟨account, hacct⟩ := mapGet_isSome_of_contains hc
    rw [hacct] at h
    simp only [] at h
    cases hp : account.process_record r with
    | ok a =>
      rw [hp] at h
      simp only [MgrResult.post, Option.some.injEq] at h
      exact ⟨account, a, hacct, by simp [ProcResult.post, hp], by rw [← h]⟩
    | err a e =>
      rw [hp] at h
      simp only [MgrResult.post, Option.some.injEq] at h
      exact ⟨account, a, hacct, by simp [ProcResult.post, hp], by rw [← h]⟩
    | panic =>
      rw [hp] at h
      simp [MgrResult.post] at h
  · rw [if_neg hc] at h ⊢
    rw [mapGet_mapInsert_self] at h
    simp only [] at h
    cases hp : (Account.new r.client_id).process_record r with
    | ok a =>
      rw [hp] at h
      simp only [MgrResult.post, Option.some.injEq] at h
      exact ⟨Account.new r.client_id, a, mapGet_mapInsert_self .., by simp [ProcResult.post, hp], by rw [← h]⟩
    | err a e =>
      rw [hp] at h
      simp only [MgrResult.post, Option.some.injEq] at h
      exact ⟨Account.new r.client_id, a, mapGet_mapInsert_self .., by simp [ProcResult.post, hp], by rw [← h]⟩
    | panic =>
      rw [hp] at h
      simp [MgrResult.post] at h

end TxProc
namespace TxProc

theorem mgr_step_keys {m : AccountManager} {r : InputRecord} {m1 : AccountManager}
    (h : (m.process_record r).post = some m1) :
    m1.accounts.map Prod.fst =
      if mapContains m.accounts r.client_id then m.accounts.map Prod.fst
      else m.accounts.map Prod.fst ++ [r.client_id] := by
  obtain ⟨account, a, hacct, hpost, heq⟩ := mgr_step_accounts h
  by_cases hc : mapContains m.accounts r.client_id
  · rw [if_pos hc] at heq ⊢
    rw [heq, map_fst_mapInsert_of_mem a ((mapContains_iff_mem _ _).mp hc)]
  · rw [if_neg hc] at heq ⊢
    have hcf : mapContains m.accounts r.client_id = false := by
      revert hc; cases mapContains m.accounts r.client_id <;> simp
    have hk : r.client_id ∈
        (mapInsert m.accounts r.client_id (Account.new r.client_id)).map Prod.fst := by
      rw [mapInsert_of_not_contains _ hcf]
      simp
    rw [heq, map_fst_mapInsert_of_mem a hk, mapInsert_of_not_contains _ hcf]
    simp

end TxProc
namespace TxProc

theorem mgr_step_managerOk {m : AccountManager} {r : InputRecord} {m1 : AccountManager}
    (h : (m.process_record r).post = some m1) (hm : ManagerOk m) :
    ManagerOk m1 := by
  obtain ⟨hn, he⟩ := hm
  obtain ⟨account, a, hacct, hpost, heq⟩ := mgr_step_accounts h
  have hkeys := mgr_step_keys h
  by_cases hc : mapContains m.accounts r.client_id
  · rw [if_pos hc] at hacct heq hkeys
    have hacc_id : account.client_id = r.client_id :=
      he (r.client_id, account) (mapGet_mem hacct)
    have ha_id : a.client_id = r.client_id := by
      rw [client_id_of_post hpost, hacc_id]
    constructor
    · rw [hkeys]; exact hn
    · rw [heq]
      exact forall_mem_mapInsert ha_id he
  · rw [if_neg hc] at hacct heq hkeys
    have hcf : mapContains m.accounts r.client_id = false := by
      revert hc; cases mapContains m.accounts r.client_id <;> simp
    have he1 : EntriesOk (mapInsert m.accounts r.client_id (Account.new r.client_id)) :=
      forall_mem_mapInsert rfl he
    have hacc_id : account.client_id = r.client_id :=
      he1 (r.client_id, account) (mapGet_mem hacct)
    have ha_id : a.client_id = r.client_id := by
      rw [client_id_of_post hpost, hacc_id]
    constructor
    · rw [hkeys]
      have hnotmem : r.client_id ∉ m.accounts.map Prod.fst := by
        intro hmem
        rw [(mapContains_iff_mem m.accounts r.client_id).mpr hmem] at hcf
        cases hcf
      simp [List.nodup_append, hn, hnotmem]
    · rw [heq]
      exact forall_mem_mapInsert ha_id he1

theorem runEvents_step_mem {m : AccountManager} {r : InputRecord}
    {m1 : AccountManager} (hpost : (m.process_record r).post = some m1) (x : Nat) :
    x ∈ m1.accounts.map Prod.fst ↔
      (x ∈ m.accounts.map Prod.fst ∨ x = r.client_id) := by
  have hkeys := mgr_step_keys hpost
  by_cases hc : mapContains m.accounts r.client_id
  · rw [if_pos hc] at hkeys
    rw [hkeys]
    have hmemc : r.client_id ∈ m.accounts.map Prod.fst :=
      (mapContains_iff_mem _ _).mp hc
    have hx : x = r.client_id → x ∈ m.accounts.map Prod.fst := fun h1 => h1 ▸ hmemc
    tauto
  · rw [if_neg hc] at hkeys
    rw [hkeys]
    simp [List.mem_append]

theorem runEvents_inv (evs : List InputRecord) :
    ∀ m mf : AccountManager, runEvents m evs = some mf → ManagerOk m →
      ManagerOk mf ∧
      ∀ x, x ∈ mf.accounts.map Prod.fst ↔
        (x ∈ m.accounts.map Prod.fst ∨ x ∈ evs.map InputRecord.client_id) := by
  induction evs with
  | nil =>
    intro m mf h hm
    unfold runEvents at h
    cases h
    simpa using hm
  | cons r rs ih =>
    intro m mf h hm
    unfold runEvents at h
    cases hr : m.process_record r with
    | ok m1 =>
      rw [hr] at h
      have hpost : (m.process_record r).post = some m1 := by
        rw [hr]; rfl
      obtain ⟨hokf, hmem⟩ := ih m1 mf h (mgr_step_managerOk hpost hm)
      refine ⟨hokf, fun x => ?_⟩
      rw [hmem x, runEvents_step_mem hpost x]
      simp only [List.map_cons, List.mem_cons]
      tauto
    | err m1 e =>
      rw [hr] at h
      have hpost : (m.process_record r).post = some m1 := by
        rw [hr]; rfl
      obtain ⟨hokf, hmem⟩ := ih m1 mf h (mgr_step_managerOk hpost hm)
      refine ⟨hokf, fun x => ?_⟩
      rw [hmem x, runEvents_step_mem hpost x]
      simp only [List.map_cons, List.mem_cons]
      tauto
    | panic =>
      rw [hr] at h
      cases h

theorem to_output_client_id {a : Account} {o : OutputRecord}
    (h : a.to_output = some o) : o.client_id = a.client_id := by
  unfold Account.to_output at h
  split at h
  · cases h; rfl
  · cases h

theorem gatherList_clients {l : List (ClientId × Account)} :
    ∀ {out : List OutputRecord}, EntriesOk l → gatherList l = some out →
      out.map OutputRecord.client_id = l.map Prod.fst := by
  induction l with
  | nil =>
    intro out _ h
    cases h
    rfl
  | cons p rest ih =>
    intro out he h
    unfold gatherList at h
    cases ho : p.2.to_output with
    | none => rw [ho] at h; cases h
    | some o =>
      rw [ho] at h
      simp only [] at h
      cases hg : gatherList rest with
      | none => rw [hg] at h; cases h
      | some os =>
        rw [hg] at h
        simp only [Option.some.injEq] at h
        subst h
        have hrest := ih (fun q hq => he q (List.mem_cons_of_mem p hq)) hg
        simp only [List.map_cons, hrest]
        rw [to_output_client_id ho, he p (List.mem_cons_self p rest)]

end TxProc
namespace TxProc

theorem mgr_fresh_err {m : AccountManager} {r : InputRecord} {m1 : AccountManager}
    {e : ManagerError}
    (hfresh : mapContains m.accounts r.client_id = false)
    (h : m.process_record r = MgrResult.err m1 e) :
    mapGet m1.accounts r.client_id = some (Account.new r.client_id) := by
  unfold AccountManager.process_record at h
  simp only [] at h
  rw [if_neg (by rw [hfresh]; simp)] at h
  rw [mapGet_mapInsert_self] at h
  simp only [] at h
  cases hp : (Account.new r.client_id).process_record r with
  | ok a => rw [hp] at h; cases h
  | err a e1 =>
    rw [hp] at h
    cases h
    rw [mapGet_mapInsert_self, process_record_err hp]
  | panic => rw [hp] at h; cases h

end TxProc

/-! ## Claims -/

namespace TxProc

/-- C4: whenever `Account::process_record` returns an error, the entire
account state — `available`, `held`, `locked` and the transactions map with
every transaction's state — is exactly what it was before the call: each
event's effect is all-or-nothing. -/
theorem claim4_error_leaves_state_unchanged (acc : Account) (r : InputRecord)
    (a : Account) (e : ProcessingError)
    (h : acc.process_record r = ProcResult.err a e) :
    a.available = acc.available ∧ a.held = acc.held ∧ a.locked = acc.locked ∧
      a.transactions = acc.transactions := by
  rw [process_record_err h]
  exact ⟨rfl, rfl, rfl, rfl⟩

/-- Witness for C4: a rejected withdrawal (insufficient funds) leaves the
account exactly as it was. -/
theorem claim4_error_leaves_state_unchanged_witness :
    (Account.mk 0 [] 7 0 false).available = (Account.mk 0 [] 7 0 false).available ∧
    (Account.mk 0 [] 7 0 false).held = (Account.mk 0 [] 7 0 false).held ∧
    (Account.mk 0 [] 7 0 false).locked = (Account.mk 0 [] 7 0 false).locked ∧
    (Account.mk 0 [] 7 0 false).transactions = (Account.mk 0 [] 7 0 false).transactions :=
  claim4_error_leaves_state_unchanged (Account.mk 0 [] 7 0 false)
    { kind := InputRecordType.Withdrawal, client_id := 0, transaction_id := 1,
      amount := some 9 }
    (Account.mk 0 [] 7 0 false)
    (ProcessingError.WithdrawalNotEnoughMoneyAvailable 7 9)
    (by decide)

/-- C6: every event on a locked account is rejected with `AccountIsLocked`
(the rejection carries the unchanged account), and consequently no stream of
subsequent events ever changes a locked account — it stays locked forever. -/
theorem claim6_locked_account_rejects_all (acc : Account) (r : InputRecord)
    (rs : List InputRecord) (h : acc.locked = true) :
    acc.process_record r = ProcResult.err acc ProcessingError.AccountIsLocked ∧
      acc.processAll rs = some acc :=
  ⟨locked_step acc r h, locked_processAll acc rs h⟩

/-- Witness for C6 on a concrete locked account and a two-event stream. -/
theorem claim6_locked_account_rejects_all_witness :
    (Account.mk 3 [] 5 2 true).process_record
        { kind := InputRecordType.Deposit, client_id := 3, transaction_id := 1,
          amount := some 4 } =
      ProcResult.err (Account.mk 3 [] 5 2 true) ProcessingError.AccountIsLocked ∧
    (Account.mk 3 [] 5 2 true).processAll
        [{ kind := InputRecordType.Deposit, client_id := 3, transaction_id := 1,
           amount := some 4 },
         { kind := InputRecordType.Dispute, client_id := 3, transaction_id := 1,
           amount := none }] =
      some (Account.mk 3 [] 5 2 true) :=
  claim6_locked_account_rejects_all (Account.mk 3 [] 5 2 true)
    { kind := InputRecordType.Deposit, client_id := 3, transaction_id := 1,
      amount := some 4 }
    [{ kind := InputRecordType.Deposit, client_id := 3, transaction_id := 1,
       amount := some 4 },
     { kind := InputRecordType.Dispute, client_id := 3, transaction_id := 1,
       amount := none }]
    (by decide)

/-- C7: on an unlocked account, a Deposit or Withdrawal whose transaction id
already exists in the map is rejected with `TransactionAlreadyExists(id)`
regardless of that transaction's current state, and the account is
unchanged (the rejection carries the account as it was). -/
theorem claim7_duplicate_transaction_rejected (acc : Account) (r : InputRecord)
    (h1 : acc.locked = false)
    (h2 : r.kind = InputRecordType.Deposit ∨ r.kind = InputRecordType.Withdrawal)
    (h3 : mapContains acc.transactions r.transaction_id = true) :
    acc.process_record r =
      ProcResult.err acc (ProcessingError.TransactionAlreadyExists r.transaction_id) := by
  rcases h2 with h2 | h2 <;>
    · unfold Account.process_record
      rw [h2]
      simp [h1, h3]

/-- Witness for C7: re-depositing under an id whose transaction is already
ChargedBack still fails with `TransactionAlreadyExists`. -/
theorem claim7_duplicate_transaction_rejected_witness :
    (Account.mk 2 [(5, Transaction.mk TransactionState.ChargedBack 10 TransactionType.Deposit)] 0 0 false).process_record
        { kind := InputRecordType.Deposit, client_id := 2, transaction_id := 5,
          amount := some 3 } =
      ProcResult.err
        (Account.mk 2 [(5, Transaction.mk TransactionState.ChargedBack 10 TransactionType.Deposit)] 0 0 false)
        (ProcessingError.TransactionAlreadyExists 5) :=
  claim7_duplicate_transaction_rejected
    (Account.mk 2 [(5, Transaction.mk TransactionState.ChargedBack 10 TransactionType.Deposit)] 0 0 false)
    { kind := InputRecordType.Deposit, client_id := 2, transaction_id := 5,
      amount := some 3 }
    (by decide) (Or.inl rfl) (by decide)

/-- C3: a successful Resolve or Chargeback of a transaction in state Dispute
applies exactly the revert rule of `calculate_transaction_revert`: for a
Deposit, `new_held = held - amount` and `available` is unchanged; for a
Withdrawal, `new_held = held - (-amount)` and
`new_available = available + (-amount)`. -/
theorem claim3_revert_rule (acc : Account) (r : InputRecord) (t : Transaction)
    (a : Account)
    (h1 : r.kind = InputRecordType.Resolve ∨ r.kind = InputRecordType.Chargeback)
    (h2 : mapGet acc.transactions r.transaction_id = some t)
    (h3 : t.state = TransactionState.Dispute)
    (h4 : acc.process_record r = ProcResult.ok a) :
    (t.kind = TransactionType.Deposit →
        a.held = acc.held - t.amount ∧ a.available = acc.available) ∧
    (t.kind = TransactionType.Withdrawal →
        a.held = acc.held - (-t.amount) ∧ a.available = acc.available + (-t.amount)) := by
  rcases h1 with h1 | h1
  · have hr : r = ⟨InputRecordType.Resolve, r.client_id, r.transaction_id, r.amount⟩ := by
      cases r
      simp_all
    rw [hr] at h4
    obtain ⟨na, nh, hrv, ha⟩ := resolve_ok_eq h2 h4
    subst ha
    constructor
    · intro hk
      obtain ⟨e1, e2⟩ := revert_ok_deposit hk hrv
      exact ⟨e2, e1⟩
    · intro hk
      obtain ⟨e1, e2⟩ := revert_ok_withdrawal hk hrv
      exact ⟨e1, e2⟩
  · have hr : r = ⟨InputRecordType.Chargeback, r.client_id, r.transaction_id, r.amount⟩ := by
      cases r
      simp_all
    rw [hr] at h4
    obtain ⟨na, nh, hrv, ha⟩ := chargeback_ok_eq h2 h4
    subst ha
    constructor
    · intro hk
      obtain ⟨e1, e2⟩ := revert_ok_deposit hk hrv
      exact ⟨e2, e1⟩
    · intro hk
      obtain ⟨e1, e2⟩ := revert_ok_withdrawal hk hrv
      exact ⟨e1, e2⟩

/-- Witness for C3: resolving a disputed deposit of 10 with held = 10 ends
with held = 0 and available unchanged. -/
theorem claim3_revert_rule_witness :
    ((Transaction.mk TransactionState.Dispute 10 TransactionType.Deposit).kind = TransactionType.Deposit →
        (Account.mk 1 [(4, Transaction.mk TransactionState.Resolved 10 TransactionType.Deposit)] 0 0 false).held =
            (Account.mk 1 [(4, Transaction.mk TransactionState.Dispute 10 TransactionType.Deposit)] 0 10 false).held - 10 ∧
          (Account.mk 1 [(4, Transaction.mk TransactionState.Resolved 10 TransactionType.Deposit)] 0 0 false).available =
            (Account.mk 1 [(4, Transaction.mk TransactionState.Dispute 10 TransactionType.Deposit)] 0 10 false).available) ∧
    ((Transaction.mk TransactionState.Dispute 10 TransactionType.Deposit).kind = TransactionType.Withdrawal →
        (Account.mk 1 [(4, Transaction.mk TransactionState.Resolved 10 TransactionType.Deposit)] 0 0 false).held =
            (Account.mk 1 [(4, Transaction.mk TransactionState.Dispute 10 TransactionType.Deposit)] 0 10 false).held - (-10) ∧
          (Account.mk 1 [(4, Transaction.mk TransactionState.Resolved 10 TransactionType.Deposit)] 0 0 false).available =
            (Account.mk 1 [(4, Transaction.mk TransactionState.Dispute 10 TransactionType.Deposit)] 0 10 false).available + (-10)) :=
  claim3_revert_rule
    (Account.mk 1 [(4, Transaction.mk TransactionState.Dispute 10 TransactionType.Deposit)] 0 10 false)
    { kind := InputRecordType.Resolve, client_id := 1, transaction_id := 4,
      amount := none }
    (Transaction.mk TransactionState.Dispute 10 TransactionType.Deposit)
    (Account.mk 1 [(4, Transaction.mk TransactionState.Resolved 10 TransactionType.Deposit)] 0 0 false)
    (Or.inl rfl) (by decide) rfl (by decide)

end TxProc
namespace TxProc

/-- C9: the sign of the incoming amount is never validated.  On every
unlocked account with a fresh transaction id, a Deposit of a negative amount
`d` succeeds and decreases `available`; and whenever additionally
`available = 0`, a Withdrawal of the negative amount `-amt` (`amt > 0`)
succeeds, increases `available` from 0 to `amt` and records a transaction
with stored amount `+amt`. -/
theorem claim9_amount_sign_unvalidated (acc : Account) (c tid : Nat)
    (d amt : Decimal)
    (h1 : acc.locked = false)
    (h2 : mapContains acc.transactions tid = false)
    (h3 : d < 0)
    (h4 : -decimalMax ≤ acc.available + d)
    (h5 : acc.available ≤ decimalMax)
    (h6 : 0 < amt)
    (h7 : amt ≤ decimalMax) :
    (acc.process_record ⟨InputRecordType.Deposit, c, tid, some d⟩ =
        ProcResult.ok { acc with
          transactions := mapInsert acc.transactions tid
            ⟨TransactionState.Valid, d, TransactionType.Deposit⟩
          available := acc.available + d } ∧
      acc.available + d < acc.available) ∧
    (acc.available = 0 →
      acc.process_record ⟨InputRecordType.Withdrawal, c, tid, some (-amt)⟩ =
        ProcResult.ok { acc with
          transactions := mapInsert acc.transactions tid
            ⟨TransactionState.Valid, amt, TransactionType.Withdrawal⟩
          available := amt }) := by
  have hmax0 : (0 : Int) ≤ decimalMax := by norm_num [decimalMax]
  have hin1 : Decimal.inRange (acc.available + d) :=
    ⟨h4, le_trans (by linarith) h5⟩
  refine ⟨⟨?_, by linarith⟩, fun h8 => ?_⟩
  · unfold Account.process_record
    simp only [h1, Bool.false_eq_true, if_false, h2]
    rw [if_pos hin1]
  · have hin2 : Decimal.inRange (acc.available - -amt) := by
      rw [sub_neg_eq_add, h8, zero_add]
      exact ⟨by linarith, h7⟩
    unfold Account.process_record
    simp only [h1, Bool.false_eq_true, if_false, h2]
    have e1 : checked_sub acc.available (-amt) = some (acc.available + amt) := by
      unfold checked_sub
      rw [sub_neg_eq_add] at hin2 ⊢
      rw [if_pos hin2]
    rw [e1]
    simp only []
    rw [if_neg (show ¬ acc.available + amt < 0 by
      rw [h8, zero_add]
      exact not_lt.mpr (le_of_lt h6))]
    simp [h8, neg_neg]

/-- C10: disputing a Valid withdrawal of requested amount `amt > 0` (stored
amount `-amt`) increases `available` by `amt` and decreases `held` by `amt`;
starting from `held = 0` this drives `held` negative while the withdrawn
funds become spendable again. -/
theorem claim10_dispute_withdrawal (acc : Account) (c tid : Nat) (amt : Decimal)
    (h1 : acc.locked = false)
    (h2 : mapGet acc.transactions tid =
        some ⟨TransactionState.Valid, -amt, TransactionType.Withdrawal⟩)
    (h3 : 0 < amt)
    (h4 : Decimal.inRange (acc.available + amt))
    (h5 : Decimal.inRange (acc.held - amt)) :
    acc.process_record ⟨InputRecordType.Dispute, c, tid, none⟩ =
        ProcResult.ok { acc with
          transactions := mapInsert acc.transactions tid
            ⟨TransactionState.Dispute, -amt, TransactionType.Withdrawal⟩
          available := acc.available + amt
          held := acc.held - amt } ∧
      (acc.held = 0 → acc.held - amt < 0) := by
  have e1 : checked_sub acc.available (-amt) = some (acc.available + amt) := by
    unfold checked_sub
    rw [sub_neg_eq_add]
    rw [if_pos h4]
  have e2 : checked_add acc.held (-amt) = some (acc.held - amt) := by
    unfold checked_add
    rw [← sub_eq_add_neg]
    rw [if_pos h5]
  constructor
  · unfold Account.process_record
    simp only [h1, Bool.false_eq_true, if_false]
    rw [h2]
    simp [check_if_state_eq, e1, e2]
  · intro h0
    rw [h0]
    linarith

end TxProc
namespace TxProc

/-- Witness for C9: deposit of -5 on a fresh empty account drops available to
-5; withdrawal of -3 with available = 0 succeeds and raises available to 3. -/
theorem claim9_amount_sign_unvalidated_witness :
    ((Account.mk 1 [] 0 0 false).process_record
          ⟨InputRecordType.Deposit, 1, 9, some (-5)⟩ =
        ProcResult.ok { Account.mk 1 [] 0 0 false with
          transactions := mapInsert (Account.mk 1 [] 0 0 false).transactions 9
            ⟨TransactionState.Valid, -5, TransactionType.Deposit⟩
          available := (Account.mk 1 [] 0 0 false).available + -5 } ∧
      (Account.mk 1 [] 0 0 false).available + -5 < (Account.mk 1 [] 0 0 false).available) ∧
    ((Account.mk 1 [] 0 0 false).available = 0 →
      (Account.mk 1 [] 0 0 false).process_record
          ⟨InputRecordType.Withdrawal, 1, 9, some (-3)⟩ =
        ProcResult.ok { Account.mk 1 [] 0 0 false with
          transactions := mapInsert (Account.mk 1 [] 0 0 false).transactions 9
            ⟨TransactionState.Valid, 3, TransactionType.Withdrawal⟩
          available := 3 }) :=
  claim9_amount_sign_unvalidated (Account.mk 1 [] 0 0 false) 1 9 (-5) 3
    rfl rfl (by norm_num) (by norm_num [decimalMax]) (by norm_num [decimalMax])
    (by norm_num) (by norm_num [decimalMax])

/-- Witness for C10: disputing a Valid withdrawal of 3 on an account with
available = held = 0 yields available = 3 and held = -3. -/
theorem claim10_dispute_withdrawal_witness :
    (Account.mk 1 [(9, Transaction.mk TransactionState.Valid (-3) TransactionType.Withdrawal)] 0 0 false).process_record
        ⟨InputRecordType.Dispute, 1, 9, none⟩ =
      ProcResult.ok { Account.mk 1 [(9, Transaction.mk TransactionState.Valid (-3) TransactionType.Withdrawal)] 0 0 false with
        transactions := mapInsert
          (Account.mk 1 [(9, Transaction.mk TransactionState.Valid (-3) TransactionType.Withdrawal)] 0 0 false).transactions 9
          ⟨TransactionState.Dispute, -3, TransactionType.Withdrawal⟩
        available := (Account.mk 1 [(9, Transaction.mk TransactionState.Valid (-3) TransactionType.Withdrawal)] 0 0 false).available + 3
        held := (Account.mk 1 [(9, Transaction.mk TransactionState.Valid (-3) TransactionType.Withdrawal)] 0 0 false).held - 3 } ∧
    ((Account.mk 1 [(9, Transaction.mk TransactionState.Valid (-3) TransactionType.Withdrawal)] 0 0 false).held = 0 →
      (Account.mk 1 [(9, Transaction.mk TransactionState.Valid (-3) TransactionType.Withdrawal)] 0 0 false).held - 3 < 0) :=
  claim10_dispute_withdrawal
    (Account.mk 1 [(9, Transaction.mk TransactionState.Valid (-3) TransactionType.Withdrawal)] 0 0 false)
    1 9 3 rfl rfl (by norm_num)
    (by constructor <;> norm_num [decimalMax])
    (by constructor <;> norm_num [decimalMax])

/-- C5 (code bug): the Deposit branch updates `available` with the unchecked
`+=`, which panics when the addition overflows the `Decimal` representation,
instead of failing with `DecimalOverflow` as every other arithmetic step
does; `checked_add` on the same operands reports the overflow. -/
theorem claim5_deposit_overflow_panics :
    (Account.mk 7 [] decimalMax 0 false).process_record
        ⟨InputRecordType.Deposit, 7, 1, some 1⟩ = ProcResult.panic ∧
    checked_add decimalMax 1 = none := by
  exact ⟨by decide, by decide⟩

/-- C1 counterexample: after Deposit 1.0 (mantissa 10000 at scale 4), Dispute
and Resolve, `available` is 0, not its pre-dispute value 10000. -/
theorem claim1_counterexample :
    ((Account.new 1).processAll
        [⟨InputRecordType.Deposit, 1, 1, some 10000⟩]).map Account.available =
      some 10000 ∧
    ((Account.new 1).processAll
        [⟨InputRecordType.Deposit, 1, 1, some 10000⟩,
         ⟨InputRecordType.Dispute, 1, 1, none⟩,
         ⟨InputRecordType.Resolve, 1, 1, none⟩]).map Account.available =
      some 0 ∧
    (10000 : Decimal) ≠ 0 := by
  refine ⟨by decide, by decide, by decide⟩

/-- C1 (amended): for an unlocked account, a positive amount and a fresh
transaction id, Deposit-Dispute-Resolve returns `held` to its pre-dispute
value but leaves `available` at its disputed value (pre-dispute minus the
amount); Withdrawal-Dispute-Resolve ends with `available` two amounts above
and `held` two amounts below their pre-dispute values. -/
theorem claim1_round_trip_amended (acc : Account) (c tid : Nat) (amt : Decimal)
    (a1 a2 a3 w1 w2 w3 : Account)
    (h1 : acc.locked = false)
    (h2 : mapContains acc.transactions tid = false)
    (h3 : 0 < amt)
    (hd1 : acc.process_record ⟨InputRecordType.Deposit, c, tid, some amt⟩ =
      ProcResult.ok a1)
    (hd2 : a1.process_record ⟨InputRecordType.Dispute, c, tid, none⟩ =
      ProcResult.ok a2)
    (hd3 : a2.process_record ⟨InputRecordType.Resolve, c, tid, none⟩ =
      ProcResult.ok a3)
    (hw1 : acc.process_record ⟨InputRecordType.Withdrawal, c, tid, some amt⟩ =
      ProcResult.ok w1)
    (hw2 : w1.process_record ⟨InputRecordType.Dispute, c, tid, none⟩ =
      ProcResult.ok w2)
    (hw3 : w2.process_record ⟨InputRecordType.Resolve, c, tid, none⟩ =
      ProcResult.ok w3) :
    a3.held = a1.held ∧ a3.available = a1.available - amt ∧
    w3.available = w1.available + 2 * amt ∧ w3.held = w1.held - 2 * amt := by
  have he1 := deposit_ok_eq hd1
  have ht1 : mapGet a1.transactions tid =
      some ⟨TransactionState.Valid, amt, TransactionType.Deposit⟩ := by
    rw [he1]
    exact mapGet_mapInsert_self ..
  have he2 := dispute_ok_eq ht1 hd2
  have ht2 : mapGet a2.transactions tid =
      some ⟨TransactionState.Dispute, amt, TransactionType.Deposit⟩ := by
    rw [he2]
    exact mapGet_mapInsert_self ..
  obtain ⟨na, nh, hrv, ha3⟩ := resolve_ok_eq ht2 hd3
  obtain ⟨e1, e2⟩ := revert_ok_deposit rfl hrv
  have hf1 : a3.held = a1.held ∧ a3.available = a1.available - amt := by
    rw [ha3, he2]
    simp only []
    constructor
    · rw [e2, he2]
      simp
    · rw [e1, he2]
  have hwe1 := (withdrawal_ok_eq hw1).1
  have hwt1 : mapGet w1.transactions tid =
      some ⟨TransactionState.Valid, -amt, TransactionType.Withdrawal⟩ := by
    rw [hwe1]
    exact mapGet_mapInsert_self ..
  have hwe2 := dispute_ok_eq hwt1 hw2
  have hwt2 : mapGet w2.transactions tid =
      some ⟨TransactionState.Dispute, -amt, TransactionType.Withdrawal⟩ := by
    rw [hwe2]
    exact mapGet_mapInsert_self ..
  obtain ⟨wa, wh, hwrv, hw3e⟩ := resolve_ok_eq hwt2 hw3
  obtain ⟨f1, f2⟩ := revert_ok_withdrawal rfl hwrv
  have hf2 : w3.available = w1.available + 2 * amt ∧ w3.held = w1.held - 2 * amt := by
    rw [hw3e]
    simp only []
    constructor
    · rw [f2, hwe2]
      simp
      ring
    · rw [f1, hwe2]
      simp
      ring
  exact ⟨hf1.1, hf1.2, hf2.1, hf2.2⟩

end TxProc
namespace TxProc

/-- Witness for C1 (amended) on a concrete account with available = 5,
amount 1: the deposit chain ends with available 5 (= 6 - 1) and held 0; the
withdrawal chain ends with available 6 (= 4 + 2) and held -2 (= 0 - 2). -/
theorem claim1_round_trip_amended_witness :
    (Account.mk 1 [(9, Transaction.mk TransactionState.Resolved 1 TransactionType.Deposit)] 5 0 false).held =
      (Account.mk 1 [(9, Transaction.mk TransactionState.Valid 1 TransactionType.Deposit)] 6 0 false).held ∧
    (Account.mk 1 [(9, Transaction.mk TransactionState.Resolved 1 TransactionType.Deposit)] 5 0 false).available =
      (Account.mk 1 [(9, Transaction.mk TransactionState.Valid 1 TransactionType.Deposit)] 6 0 false).available - 1 ∧
    (Account.mk 1 [(9, Transaction.mk TransactionState.Resolved (-1) TransactionType.Withdrawal)] 6 (-2) false).available =
      (Account.mk 1 [(9, Transaction.mk TransactionState.Valid (-1) TransactionType.Withdrawal)] 4 0 false).available + 2 * 1 ∧
    (Account.mk 1 [(9, Transaction.mk TransactionState.Resolved (-1) TransactionType.Withdrawal)] 6 (-2) false).held =
      (Account.mk 1 [(9, Transaction.mk TransactionState.Valid (-1) TransactionType.Withdrawal)] 4 0 false).held - 2 * 1 :=
  claim1_round_trip_amended (Account.mk 1 [] 5 0 false) 1 9 1
    (Account.mk 1 [(9, Transaction.mk TransactionState.Valid 1 TransactionType.Deposit)] 6 0 false)
    (Account.mk 1 [(9, Transaction.mk TransactionState.Dispute 1 TransactionType.Deposit)] 5 1 false)
    (Account.mk 1 [(9, Transaction.mk TransactionState.Resolved 1 TransactionType.Deposit)] 5 0 false)
    (Account.mk 1 [(9, Transaction.mk TransactionState.Valid (-1) TransactionType.Withdrawal)] 4 0 false)
    (Account.mk 1 [(9, Transaction.mk TransactionState.Dispute (-1) TransactionType.Withdrawal)] 5 (-1) false)
    (Account.mk 1 [(9, Transaction.mk TransactionState.Resolved (-1) TransactionType.Withdrawal)] 6 (-2) false)
    rfl rfl (by norm_num)
    (by decide) (by decide) (by decide) (by decide) (by decide) (by decide)

/-- C2 counterexample: the spec scenario (amounts as scale-4 mantissas,
10000 = 1.0, 15000 = 1.5) run on client 1 ends with available = 0 after the
Resolve, not the claimed available = 1.0. -/
theorem claim2_counterexample :
    ((Account.new 1).processAll
        [⟨InputRecordType.Deposit, 1, 1, some 10000⟩,
         ⟨InputRecordType.Withdrawal, 1, 2, some 15000⟩,
         ⟨InputRecordType.Dispute, 1, 1, none⟩,
         ⟨InputRecordType.Resolve, 1, 1, none⟩]).map Account.available =
      some 0 ∧
    (0 : Decimal) ≠ 10000 :=
  ⟨by decide, by decide⟩

/-- C2 (amended): deposit 1.0 gives available 1.0 and held 0; the 1.5
withdrawal fails with `WithdrawalNotEnoughMoneyAvailable` leaving the account
unchanged; the dispute gives available 0 and held 1.0; but the resolve ends
with available = 0.0, held = 0.0 (and locked = false), not available = 1.0. -/
theorem claim2_scenario_amended :
    (Account.new 1).processAll [⟨InputRecordType.Deposit, 1, 1, some 10000⟩] =
      some (Account.mk 1 [(1, Transaction.mk TransactionState.Valid 10000 TransactionType.Deposit)] 10000 0 false) ∧
    (Account.mk 1 [(1, Transaction.mk TransactionState.Valid 10000 TransactionType.Deposit)] 10000 0 false).process_record
        ⟨InputRecordType.Withdrawal, 1, 2, some 15000⟩ =
      ProcResult.err
        (Account.mk 1 [(1, Transaction.mk TransactionState.Valid 10000 TransactionType.Deposit)] 10000 0 false)
        (ProcessingError.WithdrawalNotEnoughMoneyAvailable 10000 15000) ∧
    (Account.new 1).processAll
        [⟨InputRecordType.Deposit, 1, 1, some 10000⟩,
         ⟨InputRecordType.Withdrawal, 1, 2, some 15000⟩,
         ⟨InputRecordType.Dispute, 1, 1, none⟩] =
      some (Account.mk 1 [(1, Transaction.mk TransactionState.Dispute 10000 TransactionType.Deposit)] 0 10000 false) ∧
    (Account.new 1).processAll
        [⟨InputRecordType.Deposit, 1, 1, some 10000⟩,
         ⟨InputRecordType.Withdrawal, 1, 2, some 15000⟩,
         ⟨InputRecordType.Dispute, 1, 1, none⟩,
         ⟨InputRecordType.Resolve, 1, 1, none⟩] =
      some (Account.mk 1 [(1, Transaction.mk TransactionState.Resolved 10000 TransactionType.Deposit)] 0 0 false) :=
  ⟨by decide, by decide, by decide, by decide⟩

/-- C8: the first event naming a client creates that client's account with
available = 0, held = 0, locked = false and an empty transaction map even
when that event then fails; and after a complete run from an empty registry,
`gather_output` emits exactly one output record per distinct client id that
appeared in the stream. -/
theorem claim8_registry_accounts (m m1 : AccountManager) (r : InputRecord)
    (e : ManagerError) (evs : List InputRecord) (mf : AccountManager)
    (out : List OutputRecord)
    (h1 : mapContains m.accounts r.client_id = false)
    (h2 : m.process_record r = MgrResult.err m1 e)
    (h3 : runEvents AccountManager.new evs = some mf)
    (h4 : mf.gather_output = some out) :
    mapGet m1.accounts r.client_id = some (Account.new r.client_id) ∧
    (out.map OutputRecord.client_id).Nodup ∧
    (∀ x ∈ out.map OutputRecord.client_id, x ∈ evs.map InputRecord.client_id) ∧
    (∀ x ∈ evs.map InputRecord.client_id, x ∈ out.map OutputRecord.client_id) := by
  have hnew : ManagerOk AccountManager.new := by
    constructor
    · simp [AccountManager.new]
    · intro p hp
      simp [AccountManager.new] at hp
  obtain ⟨hokf, hmem⟩ := runEvents_inv evs AccountManager.new mf h3 hnew
  unfold AccountManager.gather_output at h4
  have hclients : out.map OutputRecord.client_id = mf.accounts.map Prod.fst :=
    gatherList_clients hokf.2 h4
  refine ⟨mgr_fresh_err h1 h2, ?_, ?_, ?_⟩
  · rw [hclients]
    exact hokf.1
  · intro x hx
    rw [hclients] at hx
    rcases (hmem x).mp hx with h | h
    · simp [AccountManager.new] at h
    · exact h
  · intro x hx
    rw [hclients]
    exact (hmem x).mpr (Or.inr hx)

/-- Witness for C8: a failing Dispute from unseen client 5 still creates its
zeroed account; a three-event stream for clients 1 and 2 (last event failing)
yields exactly the two output records for clients 1 and 2. -/
theorem claim8_registry_accounts_witness :
    mapGet (AccountManager.mk [(5, Account.new 5)]).accounts 5 = some (Account.new 5) ∧
    (([OutputRecord.mk 1 10 0 10 false, OutputRecord.mk 2 5 0 5 false]).map OutputRecord.client_id).Nodup ∧
    (∀ x ∈ ([OutputRecord.mk 1 10 0 10 false, OutputRecord.mk 2 5 0 5 false]).map OutputRecord.client_id,
      x ∈ ([(⟨InputRecordType.Deposit, 1, 1, some 10⟩ : InputRecord),
            ⟨InputRecordType.Deposit, 2, 7, some 5⟩,
            ⟨InputRecordType.Dispute, 1, 3, none⟩]).map InputRecord.client_id) ∧
    (∀ x ∈ ([(⟨InputRecordType.Deposit, 1, 1, some 10⟩ : InputRecord),
            ⟨InputRecordType.Deposit, 2, 7, some 5⟩,
            ⟨InputRecordType.Dispute, 1, 3, none⟩]).map InputRecord.client_id,
      x ∈ ([OutputRecord.mk 1 10 0 10 false, OutputRecord.mk 2 5 0 5 false]).map OutputRecord.client_id) :=
  claim8_registry_accounts AccountManager.new
    (AccountManager.mk [(5, Account.new 5)])
    ⟨InputRecordType.Dispute, 5, 1, none⟩
    (ManagerError.RecordProcessing (ProcessingError.TransactionMissing 1))
    [⟨InputRecordType.Deposit, 1, 1, some 10⟩,
     ⟨InputRecordType.Deposit, 2, 7, some 5⟩,
     ⟨InputRecordType.Dispute, 1, 3, none⟩]
    (AccountManager.mk
      [(1, Account.mk 1 [(1, Transaction.mk TransactionState.Valid 10 TransactionType.Deposit)] 10 0 false),
       (2, Account.mk 2 [(7, Transaction.mk TransactionState.Valid 5 TransactionType.Deposit)] 5 0 false)])
    [OutputRecord.mk 1 10 0 10 false, OutputRecord.mk 2 5 0 5 false]
    (by decide) (by decide) (by decide) (by decide)

end TxProc
